import Mathlib

/-!
Verification development for the Garuda-DOS-Toolkit bootstrap layer
(`main.py`): argument/file-config reconciliation, validation, and the
session-bootstrap outcome mapping, embedded shallowly in Lean.

Python values reachable in this pipeline (argparse results and YAML
scalars/lists) are modelled by `PyVal`; `argparse.Namespace` objects by
association lists of string keys; the execution engine (external to this
layer) by its three observable outcomes.
-/

set_option autoImplicit false

namespace Garuda

/-- Python values flowing through the configuration pipeline: `None`,
booleans, integers, strings, and lists (of tag strings, the only list
shape this layer produces or inspects). Identity on `None`/`False`
singletons coincides with structural equality of these constructors;
note `PyVal.int 0 ≠ PyVal.bool false`, matching `0 is False == False`
in CPython. -/
inductive PyVal where
  | none
  | bool (b : Bool)
  | int (n : Int)
  | str (s : String)
  | list (xs : List String)
deriving DecidableEq, Repr

/-- Python truthiness (`bool(v)`) for the modelled values. -/
def PyVal.truthy : PyVal → Bool
  | PyVal.none => false
  | PyVal.bool b => b
  | PyVal.int n => !(n == 0)
  | PyVal.str s => !(s == "")
  | PyVal.list xs => !xs.isEmpty

/-- Numeric view used by Python `==`: `True`/`False` compare equal to
`1`/`0`. -/
def PyVal.numQ : PyVal → Option Int
  | PyVal.bool b => some (if b then 1 else 0)
  | PyVal.int n => some n
  | _ => Option.none

/-- Python `==` on the modelled values: numeric cross-type equality for
bool/int, structural equality otherwise (values of different
non-numeric types are unequal; `x == None` holds only for `None`). -/
def pyEq (a b : PyVal) : Bool :=
  match a.numQ, b.numQ with
  | some m, some n => m == n
  | _, _ => a == b

/-- An `argparse.Namespace` built up by `setattr`: ordered key/value
pairs with string keys. -/
abbrev NSpace := List (String × PyVal)

/-- `setattr(ns, k, v)`: overwrite the binding of `k` if present,
otherwise add it. -/
def setattr (ns : NSpace) (k : String) (v : PyVal) : NSpace :=
  if ns.any (fun kv => kv.1 == k) then
    ns.map (fun kv => if kv.1 == k then (k, v) else kv)
  else ns ++ [(k, v)]

/-- Attribute lookup returning `Option`. -/
def getattrQ (ns : NSpace) (k : String) : Option PyVal :=
  (ns.find? (fun kv => kv.1 == k)).map Prod.snd

/-- `getattr(ns, k, d)`: lookup with default. -/
def getattrD (ns : NSpace) (k : String) (d : PyVal) : PyVal :=
  (getattrQ ns k).getD d

/-- `hasattr(ns, k)`. -/
def hasattr (ns : NSpace) (k : String) : Bool :=
  ns.any (fun kv => kv.1 == k)

/-- The result of `parser.parse_args()`: each option is either absent
(`Option.none`) or holds the parsed value; `--stealth` is a
`store_true` flag, so absence is the boolean `false`. -/
structure Args where
  target : Option String
  method : Option String
  config : Option String
  attacks : Option (List String)
  connections : Option Int
  duration : Option Int
  confirm_target : Option String
  stealth : Bool
deriving DecidableEq, Repr

/-- Inject an optional string argument into `PyVal` (absent ↦ `None`). -/
def optStr : Option String → PyVal
  | Option.none => PyVal.none
  | some s => PyVal.str s

/-- Inject an optional integer argument into `PyVal` (absent ↦ `None`). -/
def optInt : Option Int → PyVal
  | Option.none => PyVal.none
  | some n => PyVal.int n

/-- Inject an optional list argument into `PyVal` (absent ↦ `None`). -/
def optList : Option (List String) → PyVal
  | Option.none => PyVal.none
  | some xs => PyVal.list xs

/-- `vars(args)`: the attribute dictionary of the parsed arguments, in
argparse's insertion order. -/
def Args.vars (a : Args) : NSpace :=
  [("target", optStr a.target),
   ("method", optStr a.method),
   ("config", optStr a.config),
   ("attacks", optList a.attacks),
   ("connections", optInt a.connections),
   ("duration", optInt a.duration),
   ("confirm_target", optStr a.confirm_target),
   ("stealth", PyVal.bool a.stealth)]

/-- One step of a `setattr` loop guarded by a predicate on the
key/value pair. -/
def stepIf (p : String × PyVal → Bool) (ns : NSpace) (kv : String × PyVal) : NSpace :=
  if p kv then setattr ns kv.1 kv.2 else ns

/-- The overlay guard from `main`: `value is not None and value is not
False`. -/
def goodVal (v : PyVal) : Bool :=
  !(v == PyVal.none) && !(v == PyVal.bool false)

/-- The base layer: `for key, value in config_from_file.items():
setattr(final_args, key, value)` starting from an empty namespace. -/
def baseNs (cfg : NSpace) : NSpace :=
  cfg.foldl (stepIf (fun _ => true)) []

/-- The merge in `main`: copy every file-config entry, then overlay
every command-line attribute whose value `is not None and is not
False`. -/
def buildFinalArgs (cfg : NSpace) (args : Args) : NSpace :=
  args.vars.foldl (stepIf (fun kv => goodVal kv.2)) (baseNs cfg)

/-- One defaulting statement of `main`:
`if not hasattr(final_args, k): setattr(final_args, k, v)`. -/
def setDefault (ns : NSpace) (k : String) (v : PyVal) : NSpace :=
  if hasattr ns k then ns else setattr ns k v

/-- The built-in defaults applied after validation of required fields:
`connections = 100`, `duration = 60`, `stealth = False`, each only when
the attribute is still missing. -/
def applyDefaults (ns : NSpace) : NSpace :=
  let ns1 := setDefault ns "connections" (PyVal.int 100)
  let ns2 := setDefault ns1 "duration" (PyVal.int 60)
  setDefault ns2 "stealth" (PyVal.bool false)

/-! ## Hostname extraction (`urllib.parse.urlparse(...).hostname`)

Model of CPython's `urlsplit` + the `hostname` property for the URL
shapes reachable here: optional scheme split at the first `:` when the
prefix is a valid scheme, authority only after `//` and delimited by
`/`, `?` or `#`, userinfo stripped at the last `@`, bracketed hosts,
port stripped at `:`, empty host ↦ `None`, and the documented
lower-casing of the result. (IPv6 zone-id case preservation and the
WHATWG control-character stripping of newer CPython are omitted; no
reachable input here contains those characters.) -/

/-- Characters allowed in a URL scheme. -/
def isSchemeChar (c : Char) : Bool :=
  c.isAlpha || c.isDigit || c == '+' || c == '-' || c == '.'

/-- Split off `scheme:` when the text before the first `:` is a valid
scheme (nonempty, leading ASCII letter, scheme characters only). -/
def dropScheme (cs : List Char) : List Char :=
  match cs.findIdx? (fun c => c == ':') with
  | Option.none => cs
  | some i =>
    if 0 < i && (cs.take i).all isSchemeChar && (cs.headD ' ').isAlpha then
      cs.drop (i + 1)
    else cs

/-- The netloc (authority) component: present only when the remainder
starts with `//`, running to the first `/`, `?` or `#`. -/
def netlocOf (cs : List Char) : List Char :=
  if cs.take 2 = ['/', '/'] then
    (cs.drop 2).takeWhile (fun c => !(c == '/' || c == '?' || c == '#'))
  else []

/-- Strip userinfo: keep the part after the last `@` (the whole string
when there is none). -/
def afterLastAt (cs : List Char) : List Char :=
  (cs.reverse.takeWhile (fun c => !(c == '@'))).reverse

/-- Extract the host from the hostinfo part: bracketed (IPv6) hosts
read up to `]`, otherwise everything before the first `:` (the port
separator). -/
def hostOf (hostinfo : List Char) : List Char :=
  if hostinfo.any (fun c => c == '[') then
    ((hostinfo.dropWhile (fun c => !(c == '['))).drop 1).takeWhile (fun c => !(c == ']'))
  else
    hostinfo.takeWhile (fun c => !(c == ':'))

/-- `urlparse(url).hostname`: `None` for an empty host, otherwise the
host lower-cased. -/
def urlparseHostname (url : String) : Option String :=
  let host := hostOf (afterLastAt (netlocOf (dropScheme url.toList)))
  if host.isEmpty then Option.none else some (String.mk (host.map Char.toLower))

/-- The hostname value as it appears to Python's `!=` comparison:
`None` or a string. -/
def hostVal : Option String → PyVal
  | Option.none => PyVal.none
  | some s => PyVal.str s

/-! ## The bootstrap flow of `main` -/

/-- The distinct fatal diagnostics printed before `sys.exit(1)` (or by
the interpreter for an uncaught exception), one constructor per print
site, carrying the interpolated data. -/
inductive ErrMsg where
  | configNotFound (path : String)
  | confirmMismatch (confirm : PyVal) (domain : Option String)
  | engineError (msg : String)
deriving DecidableEq, Repr

/-- The two `parser.error(...)` messages in `main`. -/
inductive UsageMsg where
  | missingRequired
  | missingAttacks
deriving DecidableEq, Repr

/-- The observable outcomes of the engine's construction-plus-`start()`
call, opaque to this layer: normal return, `KeyboardInterrupt`, or any
other exception with its message. -/
inductive EngineResult where
  | normal
  | keyboardInterrupt
  | failure (msg : String)
deriving DecidableEq, Repr

/-- Process-level outcome of `main`: `usageError` is `parser.error`
(usage text plus message on stderr, exit 2); `fatal` is a diagnostic on
stderr followed by `sys.exit(1)`; `success` is the `[SUCCESS]` line and
exit 0; `interrupted` is the silent `KeyboardInterrupt` path, exit 0;
`crash` is an uncaught interpreter error (non-string truthy target
reaching `urlparse`), traceback and exit 1. -/
inductive Outcome where
  | usageError (m : UsageMsg)
  | fatal (m : ErrMsg)
  | success
  | interrupted
  | crash
deriving DecidableEq, Repr

/-- The process exit code of each outcome (`parser.error` exits 2). -/
def Outcome.exitCode : Outcome → Nat
  | Outcome.usageError _ => 2
  | Outcome.fatal _ => 1
  | Outcome.success => 0
  | Outcome.interrupted => 0
  | Outcome.crash => 1

/-- Whether the outcome writes an error diagnostic (stderr/traceback). -/
def Outcome.printsError : Outcome → Bool
  | Outcome.usageError _ => true
  | Outcome.fatal _ => true
  | Outcome.crash => true
  | _ => false

/-- Whether the outcome prints the `[SUCCESS]` line. -/
def Outcome.printsSuccess : Outcome → Bool
  | Outcome.success => true
  | _ => false

/-- The file system as `main` observes it: `os.path.exists` plus the
parsed YAML mapping of an existing file (`yaml.safe_load(f) or {}`,
in document order). -/
structure FSystem where
  pexists : String → Bool
  load : String → NSpace

/-- The config-loading prologue of `main`: with a truthy `--config`
path, a missing file is fatal (`exit 1`) before any merge; otherwise
the file config is the loaded mapping or empty. -/
def loadConfig (fs : FSystem) : Option String → Except Outcome NSpace
  | some p =>
    if p == "" then Except.ok []
    else if fs.pexists p then Except.ok (fs.load p)
    else Except.error (Outcome.fatal (ErrMsg.configNotFound p))
  | Option.none => Except.ok []

/-- The required-argument check, the mixed/attacks check, the
defaulting, and the confirm-target gate of `main`, in source order;
`Except.error` is the early `parser.error`/`sys.exit` exit, `Except.ok`
the validated namespace handed to the engine. -/
def mergeAndValidate (cfg : NSpace) (args : Args) : Except Outcome NSpace :=
  let fa := buildFinalArgs cfg args
  if !(getattrD fa "target" PyVal.none).truthy || !(getattrD fa "method" PyVal.none).truthy then
    Except.error (Outcome.usageError UsageMsg.missingRequired)
  else if pyEq (getattrD fa "method" PyVal.none) (PyVal.str "mixed")
        && !(getattrD fa "attacks" PyVal.none).truthy then
    Except.error (Outcome.usageError UsageMsg.missingAttacks)
  else
    let fb := applyDefaults fa
    match getattrD fb "target" PyVal.none with
    | PyVal.str t =>
      if (getattrD fb "confirm_target" PyVal.none).truthy
          && !(pyEq (getattrD fb "confirm_target" PyVal.none) (hostVal (urlparseHostname t))) then
        Except.error (Outcome.fatal
          (ErrMsg.confirmMismatch (getattrD fb "confirm_target" PyVal.none) (urlparseHostname t)))
      else Except.ok fb
    | _ => Except.error Outcome.crash

/-- The `try` block: `GarudaEngine(final_args); engine.start()` with
its three outcome mappings (`[SUCCESS]` / silent `KeyboardInterrupt` /
`[FATAL]` + exit 1). -/
def runEngine : EngineResult → Outcome
  | EngineResult.normal => Outcome.success
  | EngineResult.keyboardInterrupt => Outcome.interrupted
  | EngineResult.failure m => Outcome.fatal (ErrMsg.engineError m)

/-- Merge, validate and run the engine (the part of `main` after the
config file is loaded). -/
def validateAndRun (cfg : NSpace) (args : Args) (e : EngineResult) : Outcome :=
  match mergeAndValidate cfg args with
  | Except.error o => o
  | Except.ok _ => runEngine e

/-- The whole of `main` after the disclaimer and `parse_args`. -/
def runMain (fs : FSystem) (args : Args) (e : EngineResult) : Outcome :=
  match loadConfig fs args.config with
  | Except.error o => o
  | Except.ok cfg => validateAndRun cfg args e

/-- A file system with no files (used by concrete scenarios that pass
no `--config`). -/
def emptyFS : FSystem := ⟨fun _ => false, fun _ => []⟩

/-! ## Lookup/update lemmas for the namespace model -/

theorem find?_map_setattr (k : String) (v : PyVal) :
    ∀ ns : NSpace, ns.any (fun kv => kv.1 == k) = true →
      (ns.map fun kv => if kv.1 == k then (k, v) else kv).find? (fun kv => kv.1 == k)
        = some (k, v)
  | [], h => by simp at h
  | kv :: rest, h => by
    by_cases hk : (kv.1 == k) = true
    · rw [List.map_cons, if_pos hk]
      exact List.find?_cons_of_pos _ (beq_self_eq_true k)
    · have hk' : (kv.1 == k) = false := Bool.eq_false_iff.2 hk
      simp only [List.any_cons, hk', Bool.false_or] at h
      rw [List.map_cons, if_neg hk,
        List.find?_cons_of_neg (p := fun kv : String × PyVal => kv.1 == k) _ hk]
      exact find?_map_setattr k v rest h

theorem find?_append_singleton (ns : NSpace) (k : String) (v : PyVal)
    (h : ns.any (fun kv => kv.1 == k) = false) :
    (ns ++ [(k, v)]).find? (fun kv => kv.1 == k) = some (k, v) := by
  rw [List.find?_append]
  have hnone : ns.find? (fun kv => kv.1 == k) = Option.none := by
    refine List.find?_eq_none.2 (fun x hx hpx => ?_)
    have hany : ns.any (fun kv => kv.1 == k) = true := List.any_eq_true.2 ⟨x, hx, hpx⟩
    rw [h] at hany
    exact Bool.false_ne_true hany
  rw [hnone, Option.none_or]
  exact List.find?_cons_of_pos _ (beq_self_eq_true k)

theorem getattrQ_setattr_self (ns : NSpace) (k : String) (v : PyVal) :
    getattrQ (setattr ns k v) k = some v := by
  unfold setattr getattrQ
  by_cases h : ns.any (fun kv => kv.1 == k) = true
  · rw [if_pos h, find?_map_setattr k v ns h]
    rfl
  · rw [if_neg h, find?_append_singleton ns k v (Bool.eq_false_iff.2 h)]
    rfl

theorem find?_map_setattr_ne (k kq : String) (v : PyVal) (hkk : (k == kq) = false) :
    ∀ ns : NSpace,
      (ns.map fun kv => if kv.1 == k then (k, v) else kv).find? (fun kv => kv.1 == kq)
        = ns.find? (fun kv => kv.1 == kq)
  | [] => rfl
  | kv :: rest => by
    by_cases hk : (kv.1 == k) = true
    · have h1 : ¬ ((kv.1 == kq) = true) := by
        rw [eq_of_beq hk]
        exact fun hp => Bool.false_ne_true (hkk ▸ hp)
      rw [List.map_cons, if_pos hk,
        List.find?_cons_of_neg (p := fun kv : String × PyVal => kv.1 == kq) _
          (fun hp => Bool.false_ne_true (hkk ▸ hp)),
        List.find?_cons_of_neg (p := fun kv : String × PyVal => kv.1 == kq) _ h1]
      exact find?_map_setattr_ne k kq v hkk rest
    · rw [List.map_cons, if_neg hk]
      by_cases hq : (kv.1 == kq) = true
      · rw [List.find?_cons_of_pos (p := fun kv : String × PyVal => kv.1 == kq) _ hq,
          List.find?_cons_of_pos (p := fun kv : String × PyVal => kv.1 == kq) _ hq]
      · rw [List.find?_cons_of_neg (p := fun kv : String × PyVal => kv.1 == kq) _ hq,
          List.find?_cons_of_neg (p := fun kv : String × PyVal => kv.1 == kq) _ hq]
        exact find?_map_setattr_ne k kq v hkk rest

theorem getattrQ_setattr_ne (ns : NSpace) (k kq : String) (v : PyVal)
    (h : (kq == k) = false) :
    getattrQ (setattr ns k v) kq = getattrQ ns kq := by
  have hkk : (k == kq) = false := by
    refine Bool.eq_false_iff.2 (fun hb => ?_)
    rw [eq_of_beq hb] at h
    simp at h
  unfold setattr getattrQ
  by_cases hany : ns.any (fun kv => kv.1 == k) = true
  · rw [if_pos hany, find?_map_setattr_ne k kq v hkk ns]
  · rw [if_neg hany, List.find?_append]
    have hone : List.find? (fun kv => kv.1 == kq) [(k, v)] = Option.none := by
      rw [List.find?_cons_of_neg (p := fun kv : String × PyVal => kv.1 == kq) _
        (fun hp => Bool.false_ne_true (hkk ▸ hp))]
      rfl
    rw [hone, Option.or_none]

theorem hasattr_eq_isSome : ∀ (ns : NSpace) (k : String),
    hasattr ns k = (getattrQ ns k).isSome
  | [], _ => rfl
  | kv :: rest, k => by
    unfold hasattr getattrQ
    rw [List.any_cons]
    by_cases hk : (kv.1 == k) = true
    · rw [hk, Bool.true_or, List.find?_cons_of_pos (p := fun kv : String × PyVal => kv.1 == k) _ hk]
      rfl
    · have hk' : (kv.1 == k) = false := Bool.eq_false_iff.2 hk
      rw [hk', Bool.false_or, List.find?_cons_of_neg (p := fun kv : String × PyVal => kv.1 == k) _ hk]
      exact hasattr_eq_isSome rest k

theorem hasattr_setattr_self (ns : NSpace) (k : String) (v : PyVal) :
    hasattr (setattr ns k v) k = true := by
  rw [hasattr_eq_isSome, getattrQ_setattr_self]
  rfl

theorem hasattr_setattr_ne (ns : NSpace) (k kq : String) (v : PyVal)
    (h : (kq == k) = false) :
    hasattr (setattr ns k v) kq = hasattr ns kq := by
  rw [hasattr_eq_isSome, hasattr_eq_isSome, getattrQ_setattr_ne ns k kq v h]

/-! ## Characterizing the two `setattr` loops -/

/-- The value the guarded `setattr` loop leaves for key `k`: the last
entry of `L` with that key that passes the guard. -/
def lastIf (p : String × PyVal → Bool) (L : NSpace) (k : String) : Option PyVal :=
  (L.reverse.find? (fun kv => kv.1 == k && p kv)).map Prod.snd

theorem getattrQ_foldl_stepIf (p : String × PyVal → Bool) (k : String) :
    ∀ (L : NSpace) (ns : NSpace),
      getattrQ (L.foldl (stepIf p) ns) k = (lastIf p L k).elim (getattrQ ns k) some
  | [], ns => rfl
  | kv :: L, ns => by
    rw [List.foldl_cons, getattrQ_foldl_stepIf p k L (stepIf p ns kv)]
    unfold lastIf
    rw [List.reverse_cons, List.find?_append]
    cases hfind : L.reverse.find? (fun kv => kv.1 == k && p kv) with
    | some w =>
      rw [Option.or_some]
      rfl
    | none =>
      rw [Option.none_or]
      by_cases hq : (kv.1 == k && p kv) = true
      · rw [List.find?_cons_of_pos (p := fun kv : String × PyVal => kv.1 == k && p kv) _ hq]
        have hq2 := hq
        rw [Bool.and_eq_true] at hq2
        obtain ⟨hqk, hqp⟩ := hq2
        show getattrQ (stepIf p ns kv) k = some kv.2
        unfold stepIf
        rw [if_pos hqp, eq_of_beq hqk]
        exact getattrQ_setattr_self ns k kv.2
      · rw [List.find?_cons_of_neg (p := fun kv : String × PyVal => kv.1 == k && p kv) _ hq,
          List.find?_nil]
        show getattrQ (stepIf p ns kv) k = getattrQ ns k
        unfold stepIf
        by_cases hp : p kv = true
        · rw [if_pos hp]
          have hkk : (kv.1 == k) = false := by
            cases hbk : (kv.1 == k) with
            | true => exact absurd (by rw [Bool.and_eq_true]; exact ⟨hbk, hp⟩) hq
            | false => rfl
          have hkq : (k == kv.1) = false := by
            refine Bool.eq_false_iff.2 (fun hb => ?_)
            rw [eq_of_beq hb, beq_self_eq_true] at hkk
            exact Bool.noConfusion hkk
          exact getattrQ_setattr_ne ns kv.1 k kv.2 hkq
        · rw [if_neg hp]

theorem getattrQ_baseNs (cfg : NSpace) (k : String) :
    getattrQ (baseNs cfg) k = (lastIf (fun _ => true) cfg k).elim Option.none some := by
  unfold baseNs
  rw [getattrQ_foldl_stepIf (fun _ => true) k cfg []]
  rfl

theorem getattrQ_buildFinalArgs (cfg : NSpace) (args : Args) (k : String) :
    getattrQ (buildFinalArgs cfg args) k =
      (lastIf (fun kv => goodVal kv.2) args.vars k).elim (getattrQ (baseNs cfg) k) some := by
  unfold buildFinalArgs
  exact getattrQ_foldl_stepIf (fun kv => goodVal kv.2) k args.vars (baseNs cfg)

/-! ## Defaulting lemmas -/

theorem setDefault_preserves (ns : NSpace) (kd k : String) (vd : PyVal)
    (h : hasattr ns k = true) :
    getattrQ (setDefault ns kd vd) k = getattrQ ns k ∧
    hasattr (setDefault ns kd vd) k = true := by
  unfold setDefault
  by_cases hkd : hasattr ns kd = true
  · rw [if_pos hkd]
    exact ⟨rfl, h⟩
  · rw [if_neg hkd]
    by_cases hk : (k == kd) = true
    · exact absurd (eq_of_beq hk ▸ h) hkd
    · have hk' : (k == kd) = false := Bool.eq_false_iff.2 hk
      refine ⟨getattrQ_setattr_ne ns kd k vd hk', ?_⟩
      rw [hasattr_setattr_ne ns kd k vd hk']
      exact h

theorem getattrQ_setDefault_missing (ns : NSpace) (k : String) (v : PyVal)
    (h : hasattr ns k = false) :
    getattrQ (setDefault ns k v) k = some v := by
  unfold setDefault
  rw [if_neg (Bool.eq_false_iff.mp h)]
  exact getattrQ_setattr_self ns k v

theorem getattrQ_setDefault_ne (ns : NSpace) (k kq : String) (v : PyVal)
    (h : (kq == k) = false) :
    getattrQ (setDefault ns k v) kq = getattrQ ns kq := by
  unfold setDefault
  by_cases hk : hasattr ns k = true
  · rw [if_pos hk]
  · rw [if_neg hk]
    exact getattrQ_setattr_ne ns k kq v h

theorem hasattr_setDefault_ne (ns : NSpace) (k kq : String) (v : PyVal)
    (h : (kq == k) = false) :
    hasattr (setDefault ns k v) kq = hasattr ns kq := by
  rw [hasattr_eq_isSome, hasattr_eq_isSome, getattrQ_setDefault_ne ns k kq v h]

theorem applyDefaults_preserves (ns : NSpace) (k : String) (h : hasattr ns k = true) :
    getattrQ (applyDefaults ns) k = getattrQ ns k := by
  obtain ⟨e1, h1⟩ := setDefault_preserves ns "connections" k (PyVal.int 100) h
  obtain ⟨e2, h2⟩ := setDefault_preserves (setDefault ns "connections" (PyVal.int 100))
    "duration" k (PyVal.int 60) h1
  obtain ⟨e3, _⟩ := setDefault_preserves
    (setDefault (setDefault ns "connections" (PyVal.int 100)) "duration" (PyVal.int 60))
    "stealth" k (PyVal.bool false) h2
  show getattrQ (setDefault (setDefault (setDefault ns "connections" (PyVal.int 100))
    "duration" (PyVal.int 60)) "stealth" (PyVal.bool false)) k = getattrQ ns k
  rw [e3, e2, e1]

theorem applyDefaults_missing (ns : NSpace)
    (hc : hasattr ns "connections" = false)
    (hd : hasattr ns "duration" = false)
    (hs : hasattr ns "stealth" = false) :
    getattrQ (applyDefaults ns) "connections" = some (PyVal.int 100) ∧
    getattrQ (applyDefaults ns) "duration" = some (PyVal.int 60) ∧
    getattrQ (applyDefaults ns) "stealth" = some (PyVal.bool false) := by
  show getattrQ (setDefault (setDefault (setDefault ns "connections" (PyVal.int 100))
      "duration" (PyVal.int 60)) "stealth" (PyVal.bool false)) "connections"
        = some (PyVal.int 100) ∧
    getattrQ (setDefault (setDefault (setDefault ns "connections" (PyVal.int 100))
      "duration" (PyVal.int 60)) "stealth" (PyVal.bool false)) "duration"
        = some (PyVal.int 60) ∧
    getattrQ (setDefault (setDefault (setDefault ns "connections" (PyVal.int 100))
      "duration" (PyVal.int 60)) "stealth" (PyVal.bool false)) "stealth"
        = some (PyVal.bool false)
  have hd1 : hasattr (setDefault ns "connections" (PyVal.int 100)) "duration" = false := by
    rw [hasattr_setDefault_ne ns "connections" "duration" _ (by decide)]
    exact hd
  have hs2 : hasattr (setDefault (setDefault ns "connections" (PyVal.int 100))
      "duration" (PyVal.int 60)) "stealth" = false := by
    rw [hasattr_setDefault_ne _ "duration" "stealth" _ (by decide),
      hasattr_setDefault_ne ns "connections" "stealth" _ (by decide)]
    exact hs
  refine ⟨?_, ?_, ?_⟩
  · rw [getattrQ_setDefault_ne _ "stealth" "connections" _ (by decide),
      getattrQ_setDefault_ne _ "duration" "connections" _ (by decide),
      getattrQ_setDefault_missing ns "connections" (PyVal.int 100) hc]
  · rw [getattrQ_setDefault_ne _ "stealth" "duration" _ (by decide),
      getattrQ_setDefault_missing _ "duration" (PyVal.int 60) hd1]
  · rw [getattrQ_setDefault_missing _ "stealth" (PyVal.bool false) hs2]

theorem lastIf_eq_none (p : String × PyVal → Bool) (L : NSpace) (k : String)
    (h : ∀ kv ∈ L, (kv.1 == k && p kv) = false) : lastIf p L k = Option.none := by
  have hfind : L.reverse.find? (fun kv => kv.1 == k && p kv) = Option.none := by
    refine List.find?_eq_none.2 (fun x hx hpx => ?_)
    rw [List.mem_reverse] at hx
    rw [h x hx] at hpx
    exact Bool.false_ne_true hpx
  unfold lastIf
  rw [hfind]
  rfl

theorem lastIf_mem_unique (p : String × PyVal → Bool) (L : NSpace) (k : String) (v : PyVal)
    (hmem : (k, v) ∈ L) (hp : p (k, v) = true)
    (huniq : ∀ w, (k, w) ∈ L → w = v) :
    lastIf p L k = some v := by
  cases hfind : L.reverse.find? (fun kv => kv.1 == k && p kv) with
  | none =>
    exfalso
    refine List.find?_eq_none.1 hfind (k, v) (List.mem_reverse.2 hmem) ?_
    rw [Bool.and_eq_true]
    exact ⟨beq_self_eq_true k, hp⟩
  | some w =>
    have hw0 := List.find?_some hfind
    have hw : (w.1 == k && p w) = true := hw0
    have hmemw : w ∈ L := List.mem_reverse.1 (List.mem_of_find?_eq_some hfind)
    rw [Bool.and_eq_true] at hw
    have hwk : w.1 = k := eq_of_beq hw.1
    have hwv : w.2 = v := by
      refine huniq w.2 ?_
      rw [← hwk]
      exact hmemw
    unfold lastIf
    rw [hfind]
    show some w.2 = some v
    rw [hwv]

theorem vars_keys_unique (a : Args) (k : String) (v w : PyVal)
    (hv : (k, v) ∈ a.vars) (hw : (k, w) ∈ a.vars) : v = w := by
  unfold Args.vars at hv hw
  simp only [List.mem_cons, List.not_mem_nil, or_false, Prod.mk.injEq] at hv hw
  rcases hv with h | h | h | h | h | h | h | h <;>
    rcases hw with g | g | g | g | g | g | g | g <;>
    simp_all

theorem optStr_ne_bool (o : Option String) (b : Bool) : optStr o ≠ PyVal.bool b := by
  cases o <;> simp [optStr]

theorem optInt_ne_bool (o : Option Int) (b : Bool) : optInt o ≠ PyVal.bool b := by
  cases o <;> simp [optInt]

theorem optList_ne_bool (o : Option (List String)) (b : Bool) : optList o ≠ PyVal.bool b := by
  cases o <;> simp [optList]

theorem getattrQ_eq_some_of_getattrD (ns : NSpace) (k : String) (v : PyVal)
    (hv : v ≠ PyVal.none) (h : getattrD ns k PyVal.none = v) : getattrQ ns k = some v := by
  unfold getattrD at h
  cases hq : getattrQ ns k with
  | none =>
    rw [hq] at h
    exact absurd h.symm hv
  | some w =>
    rw [hq] at h
    have hwv : w = v := h
    rw [hwv]

theorem mergeAndValidate_error_not_success (cfg : NSpace) (args : Args) (o : Outcome)
    (h : mergeAndValidate cfg args = Except.error o) : o ≠ Outcome.success := by
  intro ho
  subst ho
  unfold mergeAndValidate at h
  dsimp only at h
  split at h
  · simp at h
  · split at h
    · simp at h
    · split at h
      · split at h
        · simp at h
        · simp at h
      · simp at h

theorem pyEq_str_left (c : String) (x : PyVal) : pyEq (PyVal.str c) x = (PyVal.str c == x) := by
  cases x <;> rfl

/-! ## Claims -/

/-- C2: for every field whose value in the file config is boolean
`true` and whose command-line value is boolean `false` (the flag was
simply not passed), the resolved value after the merge is still `true`:
the CLI's implicit `false` never overrides a file-config `true`. -/
theorem claim2_file_true_survives (cfg : NSpace) (args : Args) (k : String)
    (hcli : (k, PyVal.bool false) ∈ args.vars)
    (hfile : getattrQ (baseNs cfg) k = some (PyVal.bool true)) :
    getattrQ (buildFinalArgs cfg args) k = some (PyVal.bool true) ∧
    getattrQ (applyDefaults (buildFinalArgs cfg args)) k = some (PyVal.bool true) := by
  have hstep : getattrQ (buildFinalArgs cfg args) k = some (PyVal.bool true) := by
    rw [getattrQ_buildFinalArgs]
    have hnone : lastIf (fun kv => goodVal kv.2) args.vars k = Option.none := by
      refine lastIf_eq_none _ _ _ (fun kv hkv => ?_)
      by_cases hk : (kv.1 == k) = true
      · have hmem2 : (k, kv.2) ∈ args.vars := by
          rw [← eq_of_beq hk]
          exact hkv
        have hv : kv.2 = PyVal.bool false :=
          vars_keys_unique args k kv.2 (PyVal.bool false) hmem2 hcli
        rw [hk, hv]
        decide
      · rw [Bool.eq_false_iff.2 hk]
        rfl
    rw [hnone]
    exact hfile
  refine ⟨hstep, ?_⟩
  rw [applyDefaults_preserves _ _ (by rw [hasattr_eq_isSome, hstep]; rfl)]
  exact hstep

/-- Witness for C2: file config sets `stealth: true`, the flag is not
passed on the command line, and the merged value is still `true`. -/
theorem claim2_file_true_survives_witness :
    getattrQ (buildFinalArgs [("stealth", PyVal.bool true)]
      (Args.mk Option.none Option.none Option.none Option.none
        Option.none Option.none Option.none false)) "stealth"
      = some (PyVal.bool true) :=
  (claim2_file_true_survives _ _ _ (by decide) (by decide)).1

/-- C4: a field set in the file config and also supplied on the
command line with a value that is neither `None` nor the boolean
`false` sentinel resolves to the command-line value. -/
theorem claim4_cli_overrides_file (cfg : NSpace) (args : Args) (k : String) (v : PyVal)
    (hmem : (k, v) ∈ args.vars)
    (hnn : v ≠ PyVal.none) (hnf : v ≠ PyVal.bool false)
    (hfile : hasattr (baseNs cfg) k = true) :
    getattrQ (buildFinalArgs cfg args) k = some v ∧
    getattrQ (applyDefaults (buildFinalArgs cfg args)) k = some v := by
  have hstep : getattrQ (buildFinalArgs cfg args) k = some v := by
    rw [getattrQ_buildFinalArgs]
    have h1 : (v == PyVal.none) = false := by
      cases hb : (v == PyVal.none) with
      | true => exact absurd (eq_of_beq hb) hnn
      | false => rfl
    have h2 : (v == PyVal.bool false) = false := by
      cases hb : (v == PyVal.bool false) with
      | true => exact absurd (eq_of_beq hb) hnf
      | false => rfl
    have hgood : goodVal v = true := by
      unfold goodVal
      rw [h1, h2]
      rfl
    have hlast := lastIf_mem_unique (fun kv => goodVal kv.2) args.vars k v hmem hgood
      (fun w hw => vars_keys_unique args k w v hw hmem)
    rw [hlast]
    rfl
  refine ⟨hstep, ?_⟩
  rw [applyDefaults_preserves _ _ (by rw [hasattr_eq_isSome, hstep]; rfl)]
  exact hstep

/-- Witness for C4: the file config sets `connections: 500`, the
command line passes `-c 1000`, and the merge resolves to 1000. -/
theorem claim4_cli_overrides_file_witness :
    getattrQ (buildFinalArgs [("connections", PyVal.int 500)]
      (Args.mk Option.none Option.none Option.none Option.none
        (some 1000) Option.none Option.none false)) "connections"
      = some (PyVal.int 1000) :=
  (claim4_cli_overrides_file _ _ _ _ (by decide) (by decide) (by decide) (by decide)).1

/-- C10: the overlay filter removes only `None` and the boolean
`False` tested by identity, so a command-line integer 0 for
`connections` or `duration` overrides any file-config value, even
though `0 == False` holds in Python. -/
theorem claim10_zero_overrides (cfg : NSpace) (args : Args) :
    (args.connections = some 0 →
      getattrQ (buildFinalArgs cfg args) "connections" = some (PyVal.int 0)) ∧
    (args.duration = some 0 →
      getattrQ (buildFinalArgs cfg args) "duration" = some (PyVal.int 0)) ∧
    pyEq (PyVal.int 0) (PyVal.bool false) = true ∧
    goodVal (PyVal.int 0) = true := by
  refine ⟨fun hc => ?_, fun hd => ?_, by decide, by decide⟩
  · have hmem : ("connections", PyVal.int 0) ∈ args.vars := by
      unfold Args.vars
      rw [hc]
      simp [optInt]
    rw [getattrQ_buildFinalArgs,
      lastIf_mem_unique (fun kv => goodVal kv.2) args.vars "connections" (PyVal.int 0)
        hmem (by decide) (fun w hw => vars_keys_unique args "connections" w (PyVal.int 0) hw hmem)]
    rfl
  · have hmem : ("duration", PyVal.int 0) ∈ args.vars := by
      unfold Args.vars
      rw [hd]
      simp [optInt]
    rw [getattrQ_buildFinalArgs,
      lastIf_mem_unique (fun kv => goodVal kv.2) args.vars "duration" (PyVal.int 0)
        hmem (by decide) (fun w hw => vars_keys_unique args "duration" w (PyVal.int 0) hw hmem)]
    rfl

/-- Witness for C10: file config sets `connections: 500`, the command
line passes `-c 0`, and the merged value is 0. -/
theorem claim10_zero_overrides_witness :
    getattrQ (buildFinalArgs [("connections", PyVal.int 500)]
      (Args.mk Option.none Option.none Option.none Option.none
        (some 0) Option.none Option.none false)) "connections"
      = some (PyVal.int 0) :=
  (claim10_zero_overrides [("connections", PyVal.int 500)]
    (Args.mk Option.none Option.none Option.none Option.none
      (some 0) Option.none Option.none false)).1 rfl

/-- C5: when `connections`, `duration` and `stealth` are absent from
both the command line and the file config, the resolved configuration
carries the built-in defaults 100, 60 and `false`; and the defaulting
step never changes a field that is already set after the merge. -/
theorem claim5_defaults (cfg : NSpace) (args : Args)
    (hc : args.connections = Option.none) (hd : args.duration = Option.none)
    (hs : args.stealth = false)
    (fc : hasattr (baseNs cfg) "connections" = false)
    (fd : hasattr (baseNs cfg) "duration" = false)
    (fs : hasattr (baseNs cfg) "stealth" = false) :
    getattrQ (applyDefaults (buildFinalArgs cfg args)) "connections" = some (PyVal.int 100) ∧
    getattrQ (applyDefaults (buildFinalArgs cfg args)) "duration" = some (PyVal.int 60) ∧
    getattrQ (applyDefaults (buildFinalArgs cfg args)) "stealth" = some (PyVal.bool false) ∧
    (∀ (ns : NSpace) (k : String), hasattr ns k = true →
      getattrQ (applyDefaults ns) k = getattrQ ns k) := by
  have habs : ∀ kq : String, kq = "connections" ∨ kq = "duration" ∨ kq = "stealth" →
      lastIf (fun kv => goodVal kv.2) args.vars kq = Option.none →
      hasattr (baseNs cfg) kq = false →
      hasattr (buildFinalArgs cfg args) kq = false := by
    intro kq _ hlast hbase
    rw [hasattr_eq_isSome, getattrQ_buildFinalArgs, hlast]
    show (getattrQ (baseNs cfg) kq).isSome = false
    rw [← hasattr_eq_isSome]
    exact hbase
  have lc : lastIf (fun kv => goodVal kv.2) args.vars "connections" = Option.none := by
    unfold lastIf Args.vars
    rw [hc]
    simp [goodVal, optInt]
  have ld : lastIf (fun kv => goodVal kv.2) args.vars "duration" = Option.none := by
    unfold lastIf Args.vars
    rw [hd]
    simp [goodVal, optInt]
  have ls : lastIf (fun kv => goodVal kv.2) args.vars "stealth" = Option.none := by
    unfold lastIf Args.vars
    rw [hs]
    simp [goodVal]
  obtain ⟨d1, d2, d3⟩ := applyDefaults_missing (buildFinalArgs cfg args)
    (habs "connections" (Or.inl rfl) lc fc)
    (habs "duration" (Or.inr (Or.inl rfl)) ld fd)
    (habs "stealth" (Or.inr (Or.inr rfl)) ls fs)
  exact ⟨d1, d2, d3, fun ns k h => applyDefaults_preserves ns k h⟩

/-- Witness for C5: file config sets only target and method, nothing
is passed on the command line, and the resolved configuration gets the
three documented defaults. -/
theorem claim5_defaults_witness :
    getattrQ (applyDefaults (buildFinalArgs
      [("target", PyVal.str "http://good.com"), ("method", PyVal.str "http-flood")]
      (Args.mk Option.none Option.none Option.none Option.none
        Option.none Option.none Option.none false))) "connections" = some (PyVal.int 100) ∧
    getattrQ (applyDefaults (buildFinalArgs
      [("target", PyVal.str "http://good.com"), ("method", PyVal.str "http-flood")]
      (Args.mk Option.none Option.none Option.none Option.none
        Option.none Option.none Option.none false))) "duration" = some (PyVal.int 60) ∧
    getattrQ (applyDefaults (buildFinalArgs
      [("target", PyVal.str "http://good.com"), ("method", PyVal.str "http-flood")]
      (Args.mk Option.none Option.none Option.none Option.none
        Option.none Option.none Option.none false))) "stealth" = some (PyVal.bool false) := by
  obtain ⟨d1, d2, d3, _⟩ := claim5_defaults
    [("target", PyVal.str "http://good.com"), ("method", PyVal.str "http-flood")]
    (Args.mk Option.none Option.none Option.none Option.none
      Option.none Option.none Option.none false)
    rfl rfl rfl (by decide) (by decide) (by decide)
  exact ⟨d1, d2, d3⟩

/-- C1 counterexample: with target and method absent everywhere, the
process exits through `parser.error` with code 2, not the claimed 1. -/
theorem claim1_counterexample :
    (runMain emptyFS (Args.mk Option.none Option.none Option.none Option.none
        Option.none Option.none Option.none false) EngineResult.normal).exitCode = 2 ∧
    ¬ (runMain emptyFS (Args.mk Option.none Option.none Option.none Option.none
        Option.none Option.none Option.none false) EngineResult.normal).exitCode = 1 := by
  decide

/-- C1 (amended): a merged configuration with a falsy (absent/empty)
target or method, or with method `mixed` and a falsy attacks list,
terminates through the CLI parser's usage-error path with exit code 2 —
the same exit code as malformed-flag usage errors — for every engine
behavior. -/
theorem claim1_usage_errors_exit_two (cfg : NSpace) (args : Args) (e : EngineResult)
    (h : (!(getattrD (buildFinalArgs cfg args) "target" PyVal.none).truthy
            || !(getattrD (buildFinalArgs cfg args) "method" PyVal.none).truthy) = true
       ∨ (pyEq (getattrD (buildFinalArgs cfg args) "method" PyVal.none) (PyVal.str "mixed")
            && !(getattrD (buildFinalArgs cfg args) "attacks" PyVal.none).truthy) = true) :
    (validateAndRun cfg args e).exitCode = 2 := by
  unfold validateAndRun mergeAndValidate
  dsimp only
  rcases h with h | h
  · rw [if_pos h]
    rfl
  · by_cases h1 : (!(getattrD (buildFinalArgs cfg args) "target" PyVal.none).truthy
        || !(getattrD (buildFinalArgs cfg args) "method" PyVal.none).truthy) = true
    · rw [if_pos h1]
      rfl
    · rw [if_neg h1, if_pos h]
      rfl

/-- Witness for the amended C1 at a concrete input. -/
theorem claim1_usage_errors_exit_two_witness :
    (validateAndRun [] (Args.mk Option.none Option.none Option.none Option.none
      Option.none Option.none Option.none false) EngineResult.normal).exitCode = 2 :=
  claim1_usage_errors_exit_two [] (Args.mk Option.none Option.none Option.none Option.none
    Option.none Option.none Option.none false) EngineResult.normal (Or.inl (by decide))

/-- C6: a merged configuration whose target is truthy, whose method is
the string `mixed`, and whose attacks value is falsy (absent or empty)
always fails with the missing-attacks usage error, for every possible
engine behavior — so the engine is never constructed or invoked. -/
theorem claim6_mixed_requires_attacks (cfg : NSpace) (args : Args)
    (ht : (getattrD (buildFinalArgs cfg args) "target" PyVal.none).truthy = true)
    (hm : getattrD (buildFinalArgs cfg args) "method" PyVal.none = PyVal.str "mixed")
    (ha : (getattrD (buildFinalArgs cfg args) "attacks" PyVal.none).truthy = false) :
    ∀ e : EngineResult,
      validateAndRun cfg args e = Outcome.usageError UsageMsg.missingAttacks := by
  intro e
  have h1 : (!(getattrD (buildFinalArgs cfg args) "target" PyVal.none).truthy
      || !(getattrD (buildFinalArgs cfg args) "method" PyVal.none).truthy) = false := by
    rw [ht, hm]
    rfl
  have h2 : (pyEq (getattrD (buildFinalArgs cfg args) "method" PyVal.none) (PyVal.str "mixed")
      && !(getattrD (buildFinalArgs cfg args) "attacks" PyVal.none).truthy) = true := by
    rw [hm, ha]
    rfl
  unfold validateAndRun mergeAndValidate
  dsimp only
  rw [if_neg (Bool.eq_false_iff.mp h1), if_pos h2]

/-- Witness for C6: CLI `target=http://x.com -m mixed` with no
`--attacks` yields the missing-attacks usage error. -/
theorem claim6_mixed_requires_attacks_witness :
    validateAndRun [] (Args.mk (some "http://x.com") (some "mixed") Option.none
      Option.none Option.none Option.none Option.none false) EngineResult.normal
      = Outcome.usageError UsageMsg.missingAttacks :=
  claim6_mixed_requires_attacks [] (Args.mk (some "http://x.com") (some "mixed") Option.none
    Option.none Option.none Option.none Option.none false)
    (by decide) (by decide) (by decide) EngineResult.normal

/-- C7: when a nonempty `--config` path is given and no file exists at
that path, main fails with the fatal configuration-file-not-found error
and exit code 1, before any merge: the outcome is the same for every
other argument value and every engine behavior. -/
theorem claim7_config_not_found (fs : FSystem) (args : Args) (e : EngineResult) (p : String)
    (hp : args.config = some p) (hne : (p == "") = false) (hex : fs.pexists p = false) :
    runMain fs args e = Outcome.fatal (ErrMsg.configNotFound p) ∧
    (runMain fs args e).exitCode = 1 ∧
    (∀ (args2 : Args) (e2 : EngineResult), args2.config = some p →
      runMain fs args2 e2 = Outcome.fatal (ErrMsg.configNotFound p)) := by
  have key : ∀ (args2 : Args) (e2 : EngineResult), args2.config = some p →
      runMain fs args2 e2 = Outcome.fatal (ErrMsg.configNotFound p) := by
    intro a2 e2 hp2
    unfold runMain loadConfig
    rw [hp2]
    dsimp only
    rw [if_neg (Bool.eq_false_iff.mp hne), if_neg (Bool.eq_false_iff.mp hex)]
  refine ⟨key args e hp, ?_, key⟩
  rw [key args e hp]
  rfl

/-- Witness for C7: `--config missing.yaml` on an empty file system. -/
theorem claim7_config_not_found_witness :
    runMain emptyFS (Args.mk Option.none Option.none (some "missing.yaml") Option.none
      Option.none Option.none Option.none false) EngineResult.normal
      = Outcome.fatal (ErrMsg.configNotFound "missing.yaml") :=
  (claim7_config_not_found emptyFS (Args.mk Option.none Option.none (some "missing.yaml")
    Option.none Option.none Option.none Option.none false) EngineResult.normal
    "missing.yaml" rfl (by decide) rfl).1

theorem loadConfig_error_not_success (fs : FSystem) (oc : Option String) (o : Outcome)
    (h : loadConfig fs oc = Except.error o) : o ≠ Outcome.success := by
  intro ho
  subst ho
  cases oc with
  | none => exact absurd h (by simp [loadConfig])
  | some p =>
    unfold loadConfig at h
    dsimp only at h
    split at h
    · simp at h
    · split at h
      · simp at h
      · simp at h

/-- C9: on every run that reaches the engine (any run of `main` that
succeeds when the engine terminates normally), a `KeyboardInterrupt`
raised during the engine's blocking call is swallowed: the process
exits 0 and prints neither an error line nor the success line. -/
theorem claim9_interrupt_clean (fs : FSystem) (args : Args)
    (h : runMain fs args EngineResult.normal = Outcome.success) :
    runMain fs args EngineResult.keyboardInterrupt = Outcome.interrupted ∧
    (runMain fs args EngineResult.keyboardInterrupt).exitCode = 0 ∧
    (runMain fs args EngineResult.keyboardInterrupt).printsError = false ∧
    (runMain fs args EngineResult.keyboardInterrupt).printsSuccess = false := by
  have hmain : runMain fs args EngineResult.keyboardInterrupt = Outcome.interrupted := by
    unfold runMain at h ⊢
    cases hlc : loadConfig fs args.config with
    | error o =>
      rw [hlc] at h
      exact absurd h (loadConfig_error_not_success fs args.config o hlc)
    | ok cfg =>
      rw [hlc] at h
      dsimp only at h ⊢
      unfold validateAndRun at h ⊢
      cases hmv : mergeAndValidate cfg args with
      | error o =>
        rw [hmv] at h
        exact absurd h (mergeAndValidate_error_not_success cfg args o hmv)
      | ok fa => rfl
  refine ⟨hmain, ?_, ?_, ?_⟩ <;> rw [hmain] <;> rfl

/-- Witness for C9: a valid configuration whose engine run is
interrupted exits 0 with no output. -/
theorem claim9_interrupt_clean_witness :
    runMain emptyFS (Args.mk (some "http://x.com") (some "http-flood") Option.none
      Option.none Option.none Option.none Option.none false) EngineResult.keyboardInterrupt
      = Outcome.interrupted :=
  (claim9_interrupt_clean emptyFS (Args.mk (some "http://x.com") (some "http-flood") Option.none
    Option.none Option.none Option.none Option.none false) (by decide)).1

theorem validateAndRun_confirm_stage (cfg : NSpace) (args : Args) (e : EngineResult) (t : String)
    (ht : getattrD (buildFinalArgs cfg args) "target" PyVal.none = PyVal.str t)
    (htne : (t == "") = false)
    (hm : (getattrD (buildFinalArgs cfg args) "method" PyVal.none).truthy = true)
    (hmx : (pyEq (getattrD (buildFinalArgs cfg args) "method" PyVal.none) (PyVal.str "mixed")
        && !(getattrD (buildFinalArgs cfg args) "attacks" PyVal.none).truthy) = false) :
    validateAndRun cfg args e =
      if ((getattrD (applyDefaults (buildFinalArgs cfg args)) "confirm_target" PyVal.none).truthy
          && !(pyEq (getattrD (applyDefaults (buildFinalArgs cfg args)) "confirm_target" PyVal.none)
                (hostVal (urlparseHostname t)))) = true then
        Outcome.fatal (ErrMsg.confirmMismatch
          (getattrD (applyDefaults (buildFinalArgs cfg args)) "confirm_target" PyVal.none)
          (urlparseHostname t))
      else runEngine e := by
  have h1 : (!(getattrD (buildFinalArgs cfg args) "target" PyVal.none).truthy
      || !(getattrD (buildFinalArgs cfg args) "method" PyVal.none).truthy) = false := by
    rw [ht, hm]
    show (!(!(t == "")) || !true) = false
    rw [htne]
    rfl
  have hq : getattrQ (buildFinalArgs cfg args) "target" = some (PyVal.str t) :=
    getattrQ_eq_some_of_getattrD _ _ _ (by simp) ht
  have hha : hasattr (buildFinalArgs cfg args) "target" = true := by
    rw [hasattr_eq_isSome, hq]
    rfl
  have hfb : getattrD (applyDefaults (buildFinalArgs cfg args)) "target" PyVal.none
      = PyVal.str t := by
    unfold getattrD
    rw [applyDefaults_preserves _ _ hha, hq]
    rfl
  unfold validateAndRun mergeAndValidate
  dsimp only
  rw [if_neg (Bool.eq_false_iff.mp h1), if_neg (Bool.eq_false_iff.mp hmx), hfb]
  dsimp only
  by_cases hcond : ((getattrD (applyDefaults (buildFinalArgs cfg args))
        "confirm_target" PyVal.none).truthy
      && !(pyEq (getattrD (applyDefaults (buildFinalArgs cfg args)) "confirm_target" PyVal.none)
            (hostVal (urlparseHostname t)))) = true
  · rw [if_pos hcond, if_pos hcond]
  · rw [if_neg hcond, if_neg hcond]

/-- C8: a target URL whose hostname parses to `good.com`, combined
with `confirmTarget = "evil.com"` (with target and method otherwise
valid), always fails with the confirm-target mismatch and exit code 1,
regardless of path/query content and of the engine. -/
theorem claim8_confirm_mismatch (cfg : NSpace) (args : Args) (e : EngineResult) (t : String)
    (ht : getattrD (buildFinalArgs cfg args) "target" PyVal.none = PyVal.str t)
    (hm : (getattrD (buildFinalArgs cfg args) "method" PyVal.none).truthy = true)
    (hmx : (pyEq (getattrD (buildFinalArgs cfg args) "method" PyVal.none) (PyVal.str "mixed")
        && !(getattrD (buildFinalArgs cfg args) "attacks" PyVal.none).truthy) = false)
    (hhost : urlparseHostname t = some "good.com")
    (hc : getattrD (buildFinalArgs cfg args) "confirm_target" PyVal.none
        = PyVal.str "evil.com") :
    validateAndRun cfg args e
      = Outcome.fatal (ErrMsg.confirmMismatch (PyVal.str "evil.com") (some "good.com")) ∧
    (validateAndRun cfg args e).exitCode = 1 := by
  have htne : (t == "") = false := by
    cases hb : (t == "") with
    | true =>
      rw [eq_of_beq hb] at hhost
      exact absurd hhost (by decide)
    | false => rfl
  have hcq : getattrQ (buildFinalArgs cfg args) "confirm_target"
      = some (PyVal.str "evil.com") :=
    getattrQ_eq_some_of_getattrD _ _ _ (by simp) hc
  have hcha : hasattr (buildFinalArgs cfg args) "confirm_target" = true := by
    rw [hasattr_eq_isSome, hcq]
    rfl
  have hcb : getattrD (applyDefaults (buildFinalArgs cfg args)) "confirm_target" PyVal.none
      = PyVal.str "evil.com" := by
    unfold getattrD
    rw [applyDefaults_preserves _ _ hcha, hcq]
    rfl
  have hout : validateAndRun cfg args e
      = Outcome.fatal (ErrMsg.confirmMismatch (PyVal.str "evil.com") (some "good.com")) := by
    rw [validateAndRun_confirm_stage cfg args e t ht htne hm hmx, hcb, hhost]
    rw [if_pos (by decide)]
  refine ⟨hout, ?_⟩
  rw [hout]
  rfl

/-- Witness for C8: `target=http://good.com/path`,
`confirmTarget=evil.com`, method `http-flood`. -/
theorem claim8_confirm_mismatch_witness :
    validateAndRun [] (Args.mk (some "http://good.com/path") (some "http-flood") Option.none
      Option.none Option.none Option.none (some "evil.com") false) EngineResult.normal
      = Outcome.fatal (ErrMsg.confirmMismatch (PyVal.str "evil.com") (some "good.com")) :=
  (claim8_confirm_mismatch [] (Args.mk (some "http://good.com/path") (some "http-flood")
    Option.none Option.none Option.none Option.none (some "evil.com") false)
    EngineResult.normal "http://good.com/path"
    (by decide) (by decide) (by decide) (by decide) (by decide)).1

/-- C3 counterexample: with `target=http://GOOD.com/x` and
`confirmTarget=good.com` the confirm value differs byte-for-byte from
the hostname as written in the URL, yet validation passes (the parsed
hostname is lower-cased before the comparison), contradicting the
claimed unnormalized comparison. -/
theorem claim3_counterexample :
    validateAndRun [] (Args.mk (some "http://GOOD.com/x") (some "http-flood") Option.none
      Option.none Option.none Option.none (some "good.com") false) EngineResult.normal
      = Outcome.success ∧
    urlparseHostname "http://GOOD.com/x" = some "good.com" ∧
    ("good.com" : String) ≠ "GOOD.com" := by
  refine ⟨by decide, by decide, by decide⟩

/-- C3 (amended): with a string `confirmTarget` and a validated
target/method, the validator fails with the confirm-target mismatch
exactly when `confirmTarget` differs from the hostname returned by URL
parsing — which is the hostname lower-cased, as the `GOOD.com` example
shows — so the comparison is exact on the parsed (lower-cased)
hostname, not on the hostname as written in the URL. -/
theorem claim3_lowercased_comparison (cfg : NSpace) (args : Args) (e : EngineResult)
    (t c : String)
    (ht : getattrD (buildFinalArgs cfg args) "target" PyVal.none = PyVal.str t)
    (htne : (t == "") = false)
    (hm : (getattrD (buildFinalArgs cfg args) "method" PyVal.none).truthy = true)
    (hmx : (pyEq (getattrD (buildFinalArgs cfg args) "method" PyVal.none) (PyVal.str "mixed")
        && !(getattrD (buildFinalArgs cfg args) "attacks" PyVal.none).truthy) = false)
    (hc : getattrD (buildFinalArgs cfg args) "confirm_target" PyVal.none = PyVal.str c)
    (hcne : (c == "") = false) :
    (validateAndRun cfg args e
        = Outcome.fatal (ErrMsg.confirmMismatch (PyVal.str c) (urlparseHostname t))
      ↔ PyVal.str c ≠ hostVal (urlparseHostname t)) ∧
    urlparseHostname "http://GOOD.com/x" = some "good.com" := by
  refine ⟨?_, by decide⟩
  have hcq : getattrQ (buildFinalArgs cfg args) "confirm_target" = some (PyVal.str c) :=
    getattrQ_eq_some_of_getattrD _ _ _ (by simp) hc
  have hcha : hasattr (buildFinalArgs cfg args) "confirm_target" = true := by
    rw [hasattr_eq_isSome, hcq]
    rfl
  have hcb : getattrD (applyDefaults (buildFinalArgs cfg args)) "confirm_target" PyVal.none
      = PyVal.str c := by
    unfold getattrD
    rw [applyDefaults_preserves _ _ hcha, hcq]
    rfl
  rw [validateAndRun_confirm_stage cfg args e t ht htne hm hmx, hcb]
  constructor
  · intro hfat heq
    have hpy : pyEq (PyVal.str c) (hostVal (urlparseHostname t)) = true := by
      rw [pyEq_str_left, heq]
      exact beq_self_eq_true _
    have hcond : ((PyVal.str c).truthy
        && !(pyEq (PyVal.str c) (hostVal (urlparseHostname t)))) = false := by
      rw [hpy]
      exact Bool.and_false _
    rw [if_neg (Bool.eq_false_iff.mp hcond)] at hfat
    cases e <;> simp [runEngine] at hfat
  · intro hne2
    have hpy : pyEq (PyVal.str c) (hostVal (urlparseHostname t)) = false := by
      rw [pyEq_str_left]
      cases hb : (PyVal.str c == hostVal (urlparseHostname t)) with
      | true => exact absurd (eq_of_beq hb) hne2
      | false => rfl
    have hcond : ((PyVal.str c).truthy
        && !(pyEq (PyVal.str c) (hostVal (urlparseHostname t)))) = true := by
      rw [hpy]
      show (!(c == "") && !false) = true
      rw [hcne]
      rfl
    rw [if_pos hcond]

/-- Witness for the amended C3 at a concrete input: confirm value
`good.com` against `target=http://good.com/path`. -/
theorem claim3_lowercased_comparison_witness :
    ((validateAndRun [] (Args.mk (some "http://good.com/path") (some "http-flood")
        Option.none Option.none Option.none Option.none (some "good.com") false)
        EngineResult.normal
        = Outcome.fatal (ErrMsg.confirmMismatch (PyVal.str "good.com")
            (urlparseHostname "http://good.com/path"))
      ↔ PyVal.str "good.com" ≠ hostVal (urlparseHostname "http://good.com/path")) ∧
    urlparseHostname "http://GOOD.com/x" = some "good.com") :=
  claim3_lowercased_comparison [] (Args.mk (some "http://good.com/path") (some "http-flood")
    Option.none Option.none Option.none Option.none (some "good.com") false)
    EngineResult.normal "http://good.com/path" "good.com"
    (by decide) (by decide) (by decide) (by decide) (by decide) (by decide)

end Garuda
